import Mathlib

/-!
Shallow embedding of the core logic of the report-management screen:
the CSV export utility (escaping, serialization, export orchestration),
the debounce hook, the filter form's auto-submit/reset logic, and the
export click handler, together with proofs of the specified properties.
-/

namespace ReportScreen

/-- JavaScript values that flow through the CSV pipeline: `null`/`undefined`
(collapsed into one constructor, as the code only ever tests `value == null`,
which is true for both), strings, integer numbers, and `Date` objects
represented by their ISO string (the result of `toISOString()`). -/
inductive JSValue where
  | null : JSValue
  | str : String → JSValue
  | num : Int → JSValue
  | date : String → JSValue
deriving DecidableEq, Repr

/-- Host-environment functions the code calls whose outputs are locale and
timezone dependent: `toLocaleDateString s` stands for
`new Date(s).toLocaleDateString()`, and `dateToString iso` stands for
`String(d)` on a `Date` object `d` with ISO string `iso`. -/
structure JSEnv where
  toLocaleDateString : String → String
  dateToString : String → String

/-- A trivial instantiation of the host environment. -/
def idEnv : JSEnv where
  toLocaleDateString := fun s => s
  dateToString := fun s => s

/-- Model of `String(value)` for the embedded values. (`String(null)` is the literal
word `"null"`; `escapeCSVValue` tests for null before ever stringifying.) -/
def jsToString (env : JSEnv) : JSValue → String
  | .null => "null"
  | .str s => s
  | .num n => toString n
  | .date iso => env.dateToString iso

/-- JavaScript truthiness of the embedded values (`null`/`undefined`, the
empty string and the number `0` are falsy). -/
def truthy : JSValue → Bool
  | .null => false
  | .str s => !s.isEmpty
  | .num n => n != 0
  | .date _ => true

/-- Model of `stringValue.replace(/"/g, '""')` at the character level: every
double-quote is doubled, all other characters pass through. -/
def doubleQuotesList : List Char → List Char
  | [] => []
  | c :: rest =>
    if c = '"' then '"' :: '"' :: doubleQuotesList rest
    else c :: doubleQuotesList rest

/-- Model of `s.includes(c)` on strings: membership of the character in the string's
character sequence. -/
def jsIncludes (s : String) (c : Char) : Bool :=
  s.data.contains c

/-- Function `escapeCSVValue` from `csvExport.js`: null/undefined become the empty
string; otherwise stringify, and if the string contains a comma, a
double-quote or a newline, wrap it in double quotes after doubling every
internal double-quote; otherwise return it unchanged. -/
def escapeCSVValue (env : JSEnv) (value : JSValue) : String :=
  match value with
  | .null => ""
  | v =>
    let stringValue := jsToString env v
    if jsIncludes stringValue ',' || jsIncludes stringValue '"'
        || jsIncludes stringValue '\n' then
      "\"" ++ String.mk (doubleQuotesList stringValue.data) ++ "\""
    else
      stringValue

/-- The regex test `/^\d{4}-\d{2}-\d{2}T\d{2}:\d{2}:\d{2}/` used by
`convertToCSV` to detect ISO-8601 timestamp strings. -/
def matchesISOTimestamp (s : String) : Bool :=
  match s.data with
  | y1 :: y2 :: y3 :: y4 :: '-' :: m1 :: m2 :: '-' :: d1 :: d2 :: 'T' ::
      h1 :: h2 :: ':' :: n1 :: n2 :: ':' :: c1 :: c2 :: _ =>
    [y1, y2, y3, y4, m1, m2, d1, d2, h1, h2, n1, n2, c1, c2].all Char.isDigit
  | _ => false

/-- A JavaScript object used as a CSV row: an association list of keys and
values in insertion order (JS string keys enumerate in insertion order). -/
abbrev Row := List (String × JSValue)

/-- Property lookup `row[header]`: yielding `undefined` (here `.null`) when
the key is absent. -/
def jsLookup (row : Row) (key : String) : JSValue :=
  (List.lookup key row).getD JSValue.null

/-- The per-cell conversion inside `convertToCSV`: a `Date` object becomes
its ISO date part (`toISOString().split('T')[0]`), a string matching the
ISO-timestamp pattern is reformatted via `new Date(value).toLocaleDateString()`,
and every other value goes through `escapeCSVValue`. -/
def formatCell (env : JSEnv) (value : JSValue) : String :=
  match value with
  | .date iso => escapeCSVValue env (.str (iso.takeWhile (· ≠ 'T')))
  | .str s =>
    if matchesISOTimestamp s then
      escapeCSVValue env (.str (env.toLocaleDateString s))
    else
      escapeCSVValue env (.str s)
  | v => escapeCSVValue env v

/-- Function `convertToCSV` from `csvExport.js`. `data = none` models `null`/
`undefined` data (`!data`); headers default to the first row's keys; each
row is rendered in header order and the lines are joined by `"\n"`. -/
def convertToCSV (env : JSEnv) (data : Option (List Row))
    (headers : Option (List String)) : String :=
  match data with
  | none => ""
  | some [] => ""
  | some (r0 :: rest) =>
    let csvHeaders := headers.getD (r0.map Prod.fst)
    let headerRow :=
      String.intercalate "," (csvHeaders.map fun h => escapeCSVValue env (.str h))
    let dataRows := (r0 :: rest).map fun row =>
      String.intercalate "," (csvHeaders.map fun h => formatCell env (jsLookup row h))
    String.intercalate "\n" (headerRow :: dataRows)

/-- A raw report record as supplied by the data-fetch collaborator. Fields
that may be absent are `.null`. -/
structure Report where
  id : JSValue
  title : JSValue
  status : JSValue
  department : JSValue
  priority : JSValue
  author : JSValue
  createdAt : JSValue
  updatedAt : JSValue
  recordCount : JSValue
  fileSize : JSValue
  executionTime : JSValue
deriving DecidableEq, Repr

/-- The row object built for one report inside `formatReportsForCSV`:
`'Created Date': report.createdAt ? new Date(report.createdAt).toLocaleDateString() : ''`
and `'Record Count': report.recordCount || ''` (JS `x || ''` yields `x` when
`x` is truthy and `''` otherwise). -/
def formatReport (env : JSEnv) (report : Report) : Row :=
  [("ID", report.id),
   ("Title", report.title),
   ("Status", report.status),
   ("Department", report.department),
   ("Priority", report.priority),
   ("Author", report.author),
   ("Created Date",
     if truthy report.createdAt then
       .str (env.toLocaleDateString (jsToString env report.createdAt))
     else .str ""),
   ("Updated Date",
     if truthy report.updatedAt then
       .str (env.toLocaleDateString (jsToString env report.updatedAt))
     else .str ""),
   ("Record Count", if truthy report.recordCount then report.recordCount else .str ""),
   ("File Size", if truthy report.fileSize then report.fileSize else .str ""),
   ("Execution Time", if truthy report.executionTime then report.executionTime else .str "")]

/-- Function `formatReportsForCSV` from `csvExport.js`: empty or absent input yields
`[]`; otherwise each report is mapped to its display row. -/
def formatReportsForCSV (env : JSEnv) (reports : Option (List Report)) : List Row :=
  match reports with
  | none => []
  | some [] => []
  | some rs => rs.map (formatReport env)

/-- Custom headers for the reports CSV export (`REPORTS_CSV_HEADERS`). -/
def REPORTS_CSV_HEADERS : List String :=
  ["ID", "Title", "Status", "Department", "Priority", "Author",
   "Created Date", "Updated Date", "Record Count", "File Size", "Execution Time"]

/-- Host state for the export pipeline: whether the browser download
mechanism (Blob/object-URL/anchor click in `downloadFile`) succeeds, and
today's date already rendered as `YYYY-MM-DD`
(`new Date().toISOString().split('T')[0]`). -/
structure ExportEnv where
  deliverOk : Bool
  today : String

/-- Function `downloadFile` from `csvExport.js`: triggers the browser download and
throws `'Failed to download file'` when the mechanism fails. A successful
call is reported as the delivered `(content, filename)` pair. -/
def downloadFile (e : ExportEnv) (content : String) (filename : String) :
    Except String (String × String) :=
  if e.deliverOk then .ok (content, filename)
  else .error "Failed to download file"

/-- Function `exportAsCSV` from `csvExport.js`. The result carries the list of
performed downloads and the generated filename; every thrown error is
re-wrapped as `` `CSV export failed: ${error.message}` `` by the
surrounding catch. -/
def exportAsCSV (env : JSEnv) (e : ExportEnv) (data : Option (List Row))
    (baseFilename : String) (headers : Option (List String)) :
    Except String (List (String × String) × String) :=
  let body : Except String (List (String × String) × String) :=
    match data with
    | none => .error "No data to export"
    | some [] => .error "No data to export"
    | some rows =>
      let csvContent := convertToCSV env (some rows) headers
      if csvContent = "" then .error "Failed to convert data to CSV format"
      else
        let filename := baseFilename ++ "-" ++ e.today ++ ".csv"
        match downloadFile e csvContent filename with
        | .error msg => .error msg
        | .ok delivered => .ok ([delivered], filename)
  match body with
  | .ok r => .ok r
  | .error msg => .error ("CSV export failed: " ++ msg)

/-- What the export click handler leaves behind: the downloads that were
performed and the status message shown to the user (`exportMessage`). -/
structure HandlerOut where
  downloads : List (String × String)
  message : String
deriving DecidableEq, Repr

/-- The body of `handleExportCSV` in `App.jsx` before its catch: early
return with `'No data to export'` on empty/absent data, otherwise format
the reports and call `exportAsCSV` with the custom headers. An `.error`
is an exception escaping the body into the handler's catch. -/
def handleExportBody (env : JSEnv) (e : ExportEnv) (data : Option (List Report)) :
    Except String HandlerOut :=
  match data with
  | none => .ok ⟨[], "No data to export"⟩
  | some [] => .ok ⟨[], "No data to export"⟩
  | some rs =>
    let formattedData := formatReportsForCSV env (some rs)
    match exportAsCSV env e (some formattedData) "reports-export" (some REPORTS_CSV_HEADERS) with
    | .error msg => .error msg
    | .ok (delivered, filename) =>
      .ok ⟨delivered,
        "Successfully exported " ++ toString rs.length ++ " reports to " ++ filename⟩

/-- Function `handleExportCSV` from `App.jsx`: the body wrapped in its catch, which
converts any exception into the `` `Export failed: ${error.message}` ``
display message. The handler itself is total: it never re-throws. -/
def handleExportCSV (env : JSEnv) (e : ExportEnv) (data : Option (List Report)) :
    HandlerOut :=
  match handleExportBody env e data with
  | .ok out => out
  | .error msg => ⟨[], "Export failed: " ++ msg⟩

/-- The six filter fields owned by `FiltersForm` (empty string means "no
constraint"). -/
structure FilterState where
  status : String
  department : String
  priority : String
  dateFrom : String
  dateTo : String
  search : String
deriving DecidableEq, Repr

/-- The caller-supplied `initialFilters` prop: a partial `FilterState`
(absent fields are `none`). -/
structure InitFilters where
  status : Option String
  department : Option String
  priority : Option String
  dateFrom : Option String
  dateTo : Option String
  search : Option String
deriving DecidableEq, Repr

/-- Baseline `initialFilters[key] || ''`: the value a field is compared against
(for string-valued fields, `x || ''` equals `x` when present and `''`
otherwise, since `'' || ''` is `''`). -/
def fieldBaseline (o : Option String) : String :=
  o.getD ""

/-- The change-detection test of the auto-submit effect in `FiltersForm`:
`Object.keys(currentFilters).some(key => currentFilters[key] !== (initialFilters[key] || ''))`
over the six filter fields. -/
def hasChanged (current : FilterState) (init : InitFilters) : Bool :=
  current.status != fieldBaseline init.status
    || current.department != fieldBaseline init.department
    || current.priority != fieldBaseline init.priority
    || current.dateFrom != fieldBaseline init.dateFrom
    || current.dateTo != fieldBaseline init.dateTo
    || current.search != fieldBaseline init.search

/-- One run of the auto-submit effect in `FiltersForm`: build
`currentFilters = { ...filters, search: debouncedSearch }` and call
`onSubmit(currentFilters)` only when `hasChanged`; `some` is the emitted
object, `none` means no emission. -/
def autoEmit (filters : FilterState) (debouncedSearch : String)
    (init : InitFilters) : Option FilterState :=
  let currentFilters := { filters with search := debouncedSearch }
  if hasChanged currentFilters init then some currentFilters else none

/-- Function `handleReset` from `FiltersForm`: builds the all-empty filter object,
stores it with `setFilters` and emits it with `onSubmit` directly. The
closure sees the previous state, the debounced search value and the
initial filters, but reads none of them. The result is
`(new local state, emitted object)`. -/
def handleReset (_prev : FilterState) (_debouncedSearch : String)
    (_init : InitFilters) : FilterState × FilterState :=
  let resetFilters : FilterState :=
    { status := "", department := "", priority := "", dateFrom := ""
      dateTo := "", search := "" }
  (resetFilters, resetFilters)

/-- The timer updates of `useDebounce` that actually fire. The input is the
change history `(tᵢ, vᵢ)` of the hook's `value` (mount included); each
change schedules `setDebouncedValue vᵢ` at `tᵢ + d` and the effect cleanup
cancels the pending timer when the next change arrives strictly before it
fires. The result lists the `(fire time, value)` pairs that survive. -/
def firedTimers {α : Type} (d : Nat) : List (Nat × α) → List (Nat × α)
  | [] => []
  | [(t, v)] => [(t + d, v)]
  | (t, v) :: (t2, v2) :: rest =>
    if t2 < t + d then firedTimers d ((t2, v2) :: rest)
    else (t + d, v) :: firedTimers d ((t2, v2) :: rest)

/-- The debounced value observed at time `T`: the hook's state starts at
the mount value `v0` and is overwritten by each fired timer whose fire
time is at most `T`; the last such write wins. -/
def debouncedAt {α : Type} (d : Nat) (v0 : α) (changes : List (Nat × α))
    (T : Nat) : α :=
  ((firedTimers d ((0, v0) :: changes)).filter (fun p => p.1 ≤ T)).foldl
    (fun _ p => p.2) v0

/-- Keep only the first occurrence of each key, preserving order (the
specification's "insertion order, first occurrence only"). -/
def firstOccur (seen : List String) : List String → List String
  | [] => []
  | k :: rest =>
    if k ∈ seen then firstOccur seen rest
    else k :: firstOccur (k :: seen) rest

/-- Specification-side cell production (§4.3): present keys go through the
per-cell conversion, missing keys yield the empty string. -/
def cellSpec (env : JSEnv) (row : Row) (h : String) : String :=
  match List.lookup h row with
  | none => ""
  | some v => formatCell env v

/-- Specification-side restatement of §4.3 `toCSV`, written from the
specification's words, to be compared with `convertToCSV`: empty rows give
the empty document with no header; the header row is the supplied headers,
else the key sequence of the first row (insertion order, first occurrence
only); each data row's cells are produced in header order with missing
keys as the empty string; lines are newline-joined, header first. -/
def toCSVSpec (env : JSEnv) (rows : List Row) (headers : Option (List String)) : String :=
  match rows with
  | [] => ""
  | r0 :: _ =>
    let hs := headers.getD (firstOccur [] (r0.map Prod.fst))
    let headerLine :=
      String.intercalate "," (hs.map fun h => escapeCSVValue env (.str h))
    let lines := rows.map fun row =>
      String.intercalate "," (hs.map fun h => cellSpec env row h)
    String.intercalate "\n" (headerLine :: lines)

/-- Holds (`true`) when every maximal run of double-quotes in the character list
has even length, i.e. every double-quote is escaped by pairing. -/
def noLoneQuote (l : List Char) : Bool :=
  match l with
  | [] => true
  | c :: rest =>
    if c = '"' then
      match rest with
      | c2 :: rest2 => if c2 = '"' then noLoneQuote rest2 else false
      | [] => false
    else noLoneQuote rest

/-- The cells of one exported report row, in the order fixed by
`REPORTS_CSV_HEADERS` (the composition of `formatReport` with the per-cell
conversion of `convertToCSV`). -/
def reportCells (env : JSEnv) (r : Report) : List String :=
  REPORTS_CSV_HEADERS.map fun h => formatCell env (jsLookup (formatReport env r) h)

/-- A concrete report whose `recordCount` is the number `0` and whose other
metric fields are absent. -/
def reportWithZeroCount : Report :=
  ⟨.num 7, .str "T", .str "draft", .str "Sales", .str "low", .str "Ann",
   .null, .null, .num 0, .null, .null⟩

/-- A concrete report whose title contains a comma. -/
def reportWithCommaTitle : Report :=
  ⟨.num 1, .str "A,B", .str "draft", .str "Sales", .str "low", .str "Ann",
   .null, .null, .num 5, .str "2 MB", .str "3s"⟩

/-! ### Helper lemmas -/

/-- Character data of `String.intercalate.go`. -/
theorem intercalate_go_data (s : String) :
    ∀ (as : List String) (acc : String),
      (String.intercalate.go acc s as).data
        = acc.data ++ (as.map fun a => s.data ++ a.data).flatten := by
  intro as
  induction as with
  | nil => intro acc; simp [String.intercalate.go]
  | cons a as ih =>
    intro acc
    simp [String.intercalate.go, ih, List.append_assoc]

/-- Character data of `String.intercalate` on a nonempty list. -/
theorem intercalate_data (s a : String) (as : List String) :
    (String.intercalate s (a :: as)).data
      = a.data ++ (as.map fun x => s.data ++ x.data).flatten := by
  simp [String.intercalate, intercalate_go_data]

/-- Doubling the quotes doubles the quote count and fixes the rest. -/
theorem doubleQuotesList_count (l : List Char) :
    (doubleQuotesList l).count '"' = 2 * l.count '"' := by
  induction l with
  | nil => simp [doubleQuotesList]
  | cons c rest ih =>
    by_cases hc : c = '"'
    · subst hc
      simp [doubleQuotesList, ih, List.count_cons]
      ring
    · simp [doubleQuotesList, hc, ih, List.count_cons]

/-- Lemma: `noLoneQuote` skips a non-quote head. -/
theorem noLoneQuote_cons_ne (c : Char) (hc : c ≠ '"') (l : List Char) :
    noLoneQuote (c :: l) = noLoneQuote l := by
  conv_lhs => rw [noLoneQuote.eq_def]
  simp [hc]

/-- Lemma: `noLoneQuote` consumes a pair of quotes. -/
theorem noLoneQuote_quote_pair (l : List Char) :
    noLoneQuote ('"' :: '"' :: l) = noLoneQuote l := by
  conv_lhs => rw [noLoneQuote.eq_def]
  simp

/-- The result of doubling quotes has no lone quote. -/
theorem noLoneQuote_doubleQuotesList (l : List Char) :
    noLoneQuote (doubleQuotesList l) = true := by
  induction l with
  | nil => rfl
  | cons c rest ih =>
    by_cases hc : c = '"'
    · subst hc
      simpa [doubleQuotesList, noLoneQuote_quote_pair] using ih
    · simpa [doubleQuotesList, hc, noLoneQuote_cons_ne c hc] using ih

/-- On a list with no duplicate keys, keeping first occurrences is the
identity. -/
theorem firstOccur_eq_self (l : List String) (hl : l.Nodup) :
    ∀ seen : List String, (∀ k ∈ l, k ∉ seen) → firstOccur seen l = l := by
  induction l with
  | nil => intro seen _; rfl
  | cons k rest ih =>
    intro seen hseen
    have hk : k ∉ seen := hseen k (by simp)
    have hrest : rest.Nodup := (List.nodup_cons.mp hl).2
    have hknotin : k ∉ rest := (List.nodup_cons.mp hl).1
    simp only [firstOccur, if_neg hk]
    congr 1
    exact ih hrest (k :: seen) (by
      intro x hx
      simp only [List.mem_cons]
      push_neg
      constructor
      · intro hxk; exact hknotin (hxk ▸ hx)
      · exact hseen x (by simp [hx]))

/-- The last change always yields the last fired timer. -/
theorem firedTimers_concat {α : Type} (d : Nat) :
    ∀ (cs : List (Nat × α)) (t : Nat) (v : α),
      ∃ ys, firedTimers d (cs ++ [(t, v)]) = ys ++ [(t + d, v)] := by
  intro cs
  induction cs with
  | nil => intro t v; exact ⟨[], rfl⟩
  | cons hd tl ih =>
    intro t v
    obtain ⟨t1, v1⟩ := hd
    cases tl with
    | nil =>
      by_cases h : t < t1 + d
      · exact ⟨[], by simp [firedTimers, h]⟩
      · exact ⟨[(t1 + d, v1)], by simp [firedTimers, h]⟩
    | cons hd2 tl2 =>
      obtain ⟨ys, hys⟩ := ih t v
      by_cases h : (hd2.1 : Nat) < t1 + d
      · refine ⟨ys, ?_⟩
        simpa [firedTimers, h] using hys
      · refine ⟨(t1 + d, v1) :: ys, ?_⟩
        simpa [firedTimers, h] using hys

/-- Every fired timer comes from a change, delayed by `d`. -/
theorem firedTimers_mem {α : Type} (d : Nat) :
    ∀ (cs : List (Nat × α)) (p : Nat × α), p ∈ firedTimers d cs →
      ∃ q ∈ cs, p = (q.1 + d, q.2) := by
  intro cs
  induction cs with
  | nil => intro p hp; simp [firedTimers] at hp
  | cons hd tl ih =>
    intro p hp
    obtain ⟨t1, v1⟩ := hd
    cases tl with
    | nil =>
      simp [firedTimers] at hp
      exact ⟨(t1, v1), by simp, by simp [hp]⟩
    | cons hd2 tl2 =>
      by_cases h : (hd2.1 : Nat) < t1 + d
      · simp only [firedTimers, if_pos h] at hp
        obtain ⟨q, hq, hpq⟩ := ih p hp
        exact ⟨q, List.mem_cons_of_mem _ hq, hpq⟩
      · simp only [firedTimers, if_neg h] at hp
        rcases List.mem_cons.mp hp with h1 | h2
        · exact ⟨(t1, v1), by simp, by simp [h1]⟩
        · obtain ⟨q, hq, hpq⟩ := ih p h2
          exact ⟨q, List.mem_cons_of_mem _ hq, hpq⟩

/-- Under strictly increasing change times, every change time is bounded by
the last one. -/
theorem chain_time_le_last {α : Type} :
    ∀ (cs : List (Nat × α)) (t : Nat) (v : α),
      List.Chain' (fun a b => a.1 < b.1) (cs ++ [(t, v)]) →
      ∀ q ∈ cs ++ [(t, v)], q.1 ≤ t := by
  intro cs
  induction cs with
  | nil =>
    intro t v _ q hq
    simp at hq
    simp [hq]
  | cons hd tl ih =>
    intro t v hchain q hq
    have hcons := List.chain'_cons'.mp hchain
    have htail : List.Chain' (fun a b => a.1 < b.1) (tl ++ [(t, v)]) := hcons.2
    rcases List.mem_cons.mp hq with h1 | h2
    · subst h1
      cases htl : tl with
      | nil =>
        have h := hcons.1 (t, v) (by simp [htl])
        simp at h
        omega
      | cons a l =>
        have hlt : q.1 < a.1 := hcons.1 a (by simp [htl])
        have hle : a.1 ≤ t := ih t v (htl ▸ htail) a (by simp [htl])
        omega
    · exact ih t v htail q h2

/-- When every change lands strictly within the previous window, only the
final timer fires. -/
theorem firedTimers_allCancelled {α : Type} (d : Nat) :
    ∀ (cs : List (Nat × α)) (t : Nat) (v : α),
      List.Chain' (fun a b => b.1 < a.1 + d) (cs ++ [(t, v)]) →
      firedTimers d (cs ++ [(t, v)]) = [(t + d, v)] := by
  intro cs
  induction cs with
  | nil => intro t v _; rfl
  | cons hd tl ih =>
    intro t v hchain
    obtain ⟨t1, v1⟩ := hd
    have hcons := List.chain'_cons'.mp hchain
    have htail : List.Chain' (fun a b => b.1 < a.1 + d) (tl ++ [(t, v)]) := hcons.2
    cases tl with
    | nil =>
      have hrel : t < t1 + d := by simpa using hcons.1 (t, v) (by simp)
      simp [firedTimers, hrel]
    | cons hd2 tl2 =>
      have hrel : hd2.1 < t1 + d := by simpa using hcons.1 hd2 (by simp)
      simpa [firedTimers, hrel] using ih t v htail

/-- The CSV text of a nonempty row list contains a newline (header row
joined with at least one data row). -/
theorem convertToCSV_cons_newline_mem (env : JSEnv) (r0 : Row) (rest : List Row)
    (hs : Option (List String)) :
    '\n' ∈ (convertToCSV env (some (r0 :: rest)) hs).data := by
  simp only [convertToCSV, List.map_cons]
  rw [intercalate_data]
  refine List.mem_append.mpr (Or.inr ?_)
  refine List.mem_flatten.mpr ⟨"\n".data ++ (String.intercalate ","
    (((hs.getD (r0.map Prod.fst))).map fun h => formatCell env (jsLookup r0 h))).data,
    by simp, by simp⟩

/-- The CSV text of a nonempty row list is not the empty string. -/
theorem convertToCSV_cons_ne_empty (env : JSEnv) (r0 : Row) (rest : List Row)
    (hs : Option (List String)) :
    convertToCSV env (some (r0 :: rest)) hs ≠ "" := by
  intro h
  have hmem := convertToCSV_cons_newline_mem env r0 rest hs
  rw [h] at hmem
  simp at hmem

/-- On nonempty data, `exportAsCSV` reaches the download: it either
succeeds with the date-stamped filename or fails with the wrapped
download-failure message. -/
theorem exportAsCSV_cons (env : JSEnv) (e : ExportEnv) (r0 : Row)
    (rest : List Row) (base : String) (hs : Option (List String)) :
    exportAsCSV env e (some (r0 :: rest)) base hs =
      (if e.deliverOk then
        .ok ([(convertToCSV env (some (r0 :: rest)) hs, base ++ "-" ++ e.today ++ ".csv")],
          base ++ "-" ++ e.today ++ ".csv")
      else .error "CSV export failed: Failed to download file") := by
  have hne := convertToCSV_cons_ne_empty env r0 rest hs
  simp only [exportAsCSV, downloadFile, if_neg hne]
  cases h : e.deliverOk <;> simp [h]

/-! ### Claim theorems -/

/-- C3: invoking the export with an empty or absent record list never
invokes the download mechanism, reports the user-visible message
`"No data to export"`, and no exception escapes the click handler (the
handler body returns normally with that message, so the catch is not even
exercised); `exportAsCSV` itself, called directly with empty or absent
data, throws the wrapped `"CSV export failed: No data to export"` without
downloading anything. -/
theorem export_emptyData_spec (env : JSEnv) (e : ExportEnv) (base : String)
    (hs : Option (List String)) :
    handleExportBody env e none = .ok ⟨[], "No data to export"⟩ ∧
    handleExportBody env e (some []) = .ok ⟨[], "No data to export"⟩ ∧
    handleExportCSV env e none = ⟨[], "No data to export"⟩ ∧
    handleExportCSV env e (some []) = ⟨[], "No data to export"⟩ ∧
    (handleExportCSV env e none).downloads = [] ∧
    (handleExportCSV env e (some [])).downloads = [] ∧
    exportAsCSV env e none base hs = .error "CSV export failed: No data to export" ∧
    exportAsCSV env e (some []) base hs = .error "CSV export failed: No data to export" :=
  ⟨rfl, rfl, rfl, rfl, rfl, rfl, rfl, rfl⟩

/-- C3 witness: the statement at a concrete environment. -/
theorem export_emptyData_spec_witness :
    handleExportCSV idEnv ⟨true, "2026-10-11"⟩ none = ⟨[], "No data to export"⟩ ∧
    handleExportCSV idEnv ⟨true, "2026-10-11"⟩ (some []) = ⟨[], "No data to export"⟩ :=
  ⟨(export_emptyData_spec idEnv ⟨true, "2026-10-11"⟩ "export" none).2.2.1,
   (export_emptyData_spec idEnv ⟨true, "2026-10-11"⟩ "export" none).2.2.2.1⟩

/-- C5: the reset action, from any prior filter state and whatever the
debounced search value and initial baseline are, stores the all-empty
filter object and immediately emits exactly that object (the emission is
unconditional: it goes through neither the debounce window nor the
change-detection check, which the result's independence of all three
arguments exhibits). -/
theorem handleReset_spec (prev : FilterState) (ds : String) (init : InitFilters) :
    handleReset prev ds init =
      ({ status := "", department := "", priority := "", dateFrom := "",
         dateTo := "", search := "" },
       { status := "", department := "", priority := "", dateFrom := "",
         dateTo := "", search := "" }) := rfl

/-- C9: exceptions thrown inside the export chain are all recovered at the
handler boundary: a body that returns normally is passed through, a body
that throws message `msg` produces the display string
`"Export failed: " ++ msg` and no download; in particular a failing
download mechanism on nonempty data yields exactly the doubly-wrapped
message and never an unhandled fault (the handler is total by these two
cases, which are exhaustive for `Except`). -/
theorem export_failureRecovery_spec (env : JSEnv) (e : ExportEnv)
    (data : Option (List Report)) :
    (∀ out, handleExportBody env e data = .ok out →
      handleExportCSV env e data = out) ∧
    (∀ msg, handleExportBody env e data = .error msg →
      handleExportCSV env e data = ⟨[], "Export failed: " ++ msg⟩) ∧
    (∀ r rs, data = some (r :: rs) → e.deliverOk = false →
      handleExportCSV env e data =
        ⟨[], "Export failed: CSV export failed: Failed to download file"⟩) := by
  refine ⟨?_, ?_, ?_⟩
  · intro out hout
    simp [handleExportCSV, hout]
  · intro msg hmsg
    simp [handleExportCSV, hmsg]
  · intro r rs hdata hfail
    subst hdata
    have hexp := exportAsCSV_cons env e (formatReport env r)
      (rs.map (formatReport env)) "reports-export" (some REPORTS_CSV_HEADERS)
    rw [hfail] at hexp
    simp at hexp
    simp [handleExportCSV, handleExportBody, formatReportsForCSV, hexp]

/-- C9 witness: a concrete failing download is converted into the display
message. -/
theorem export_failureRecovery_spec_witness :
    handleExportCSV idEnv ⟨false, "2026-10-11"⟩ (some [reportWithCommaTitle]) =
      ⟨[], "Export failed: CSV export failed: Failed to download file"⟩ :=
  (export_failureRecovery_spec idEnv ⟨false, "2026-10-11"⟩
    (some [reportWithCommaTitle])).2.2 reportWithCommaTitle [] rfl rfl

/-- C10: for every nonempty input list and any headers argument,
`convertToCSV` returns a string containing at least one newline, hence a
nonempty string, so the defensive
`"Failed to convert data to CSV format"` branch of `exportAsCSV` is
unreachable on nonempty data. -/
theorem convertToCSV_nonempty_spec (env : JSEnv) (r0 : Row) (rest : List Row)
    (hs : Option (List String)) :
    (convertToCSV env (some (r0 :: rest)) hs).contains '\n' = true ∧
    convertToCSV env (some (r0 :: rest)) hs ≠ "" ∧
    ∀ (e : ExportEnv) (base : String),
      exportAsCSV env e (some (r0 :: rest)) base hs
        ≠ .error "CSV export failed: Failed to convert data to CSV format" := by
  refine ⟨?_, convertToCSV_cons_ne_empty env r0 rest hs, ?_⟩
  · rw [String.contains_iff]
    exact convertToCSV_cons_newline_mem env r0 rest hs
  · intro e base
    rw [exportAsCSV_cons]
    cases h : e.deliverOk <;> simp

/-- C10 witness: the statement at a concrete row. -/
theorem convertToCSV_nonempty_spec_witness :
    (convertToCSV idEnv (some [[("a", JSValue.num 1)]]) none).contains '\n' = true ∧
    convertToCSV idEnv (some [[("a", JSValue.num 1)]]) none ≠ "" ∧
    exportAsCSV idEnv ⟨true, "2026-10-11"⟩ (some [[("a", JSValue.num 1)]]) "export" none
      ≠ .error "CSV export failed: Failed to convert data to CSV format" :=
  ⟨(convertToCSV_nonempty_spec idEnv [("a", JSValue.num 1)] [] none).1,
   (convertToCSV_nonempty_spec idEnv [("a", JSValue.num 1)] [] none).2.1,
   (convertToCSV_nonempty_spec idEnv [("a", JSValue.num 1)] [] none).2.2
     ⟨true, "2026-10-11"⟩ "export"⟩

/-- The empty string passes through the cell conversion unchanged. -/
theorem formatCell_emptyStr (env : JSEnv) : formatCell env (JSValue.str "") = "" := rfl

/-- C1 counterexample: a report whose `recordCount` is truly the number `0`
is rendered by `formatReportsForCSV` as the empty string, not as `0`,
because `report.recordCount || ''` treats `0` as falsy. -/
theorem formatReports_zeroRecordCount_cex :
    reportWithZeroCount.recordCount = JSValue.num 0 ∧
    formatReportsForCSV idEnv (some [reportWithZeroCount])
      = [formatReport idEnv reportWithZeroCount] ∧
    jsLookup (formatReport idEnv reportWithZeroCount) "Record Count"
      = JSValue.str "" ∧
    formatCell idEnv (jsLookup (formatReport idEnv reportWithZeroCount) "Record Count")
      = "" ∧
    formatCell idEnv (jsLookup (formatReport idEnv reportWithZeroCount) "Record Count")
      ≠ "0" := by
  refine ⟨rfl, rfl, rfl, rfl, ?_⟩
  decide

/-- C1 (amended): `formatReportsForCSV` renders the metric fields
`Record Count`, `File Size` and `Execution Time` as the source value when
that value is truthy and as the empty string when it is absent or
otherwise falsy — including a source value that is truly `0`, which JS
`||` coerces to the empty string; an absent field therefore serializes to
the empty cell and never to the words `"null"` or `"undefined"`. -/
theorem formatReports_metricFields (env : JSEnv) (r : Report) :
    jsLookup (formatReport env r) "Record Count"
      = (if truthy r.recordCount then r.recordCount else JSValue.str "") ∧
    jsLookup (formatReport env r) "File Size"
      = (if truthy r.fileSize then r.fileSize else JSValue.str "") ∧
    jsLookup (formatReport env r) "Execution Time"
      = (if truthy r.executionTime then r.executionTime else JSValue.str "") ∧
    formatCell env (jsLookup (formatReport env r) "Record Count")
      = (if truthy r.recordCount then formatCell env r.recordCount else "") ∧
    formatCell env (jsLookup (formatReport env r) "File Size")
      = (if truthy r.fileSize then formatCell env r.fileSize else "") ∧
    formatCell env (jsLookup (formatReport env r) "Execution Time")
      = (if truthy r.executionTime then formatCell env r.executionTime else "") := by
  refine ⟨rfl, rfl, rfl, ?_, ?_, ?_⟩
  · by_cases ht : truthy r.recordCount <;>
      simp [show jsLookup (formatReport env r) "Record Count"
          = (if truthy r.recordCount then r.recordCount else JSValue.str "") from rfl,
        ht, formatCell_emptyStr]
  · by_cases ht : truthy r.fileSize <;>
      simp [show jsLookup (formatReport env r) "File Size"
          = (if truthy r.fileSize then r.fileSize else JSValue.str "") from rfl,
        ht, formatCell_emptyStr]
  · by_cases ht : truthy r.executionTime <;>
      simp [show jsLookup (formatReport env r) "Execution Time"
          = (if truthy r.executionTime then r.executionTime else JSValue.str "") from rfl,
        ht, formatCell_emptyStr]

/-- C4: the auto-submit effect of the filter form emits exactly when at
least one of the six fields of the combined object (search replaced by its
debounced value) differs from `initialFilters[field]` defaulted to the
empty string; the emitted object is the combined object, and when every
field equals its baseline no emission happens. -/
theorem filtersForm_autoEmit_spec (f : FilterState) (ds : String)
    (init : InitFilters) :
    ((autoEmit f ds init).isSome = true ↔
      (f.status ≠ init.status.getD "" ∨ f.department ≠ init.department.getD ""
        ∨ f.priority ≠ init.priority.getD "" ∨ f.dateFrom ≠ init.dateFrom.getD ""
        ∨ f.dateTo ≠ init.dateTo.getD "" ∨ ds ≠ init.search.getD "")) ∧
    (∀ c, autoEmit f ds init = some c → c = { f with search := ds }) ∧
    (f.status = init.status.getD "" → f.department = init.department.getD "" →
      f.priority = init.priority.getD "" → f.dateFrom = init.dateFrom.getD "" →
      f.dateTo = init.dateTo.getD "" → ds = init.search.getD "" →
      autoEmit f ds init = none) := by
  have hiff : hasChanged { f with search := ds } init = true ↔
      (f.status ≠ init.status.getD "" ∨ f.department ≠ init.department.getD ""
        ∨ f.priority ≠ init.priority.getD "" ∨ f.dateFrom ≠ init.dateFrom.getD ""
        ∨ f.dateTo ≠ init.dateTo.getD "" ∨ ds ≠ init.search.getD "") := by
    simp [hasChanged, fieldBaseline]
    tauto
  refine ⟨?_, ?_, ?_⟩
  · rw [← hiff]
    by_cases h : hasChanged { f with search := ds } init <;> simp [autoEmit, h]
  · intro c hc
    simp only [autoEmit] at hc
    split at hc
    · exact (Option.some_inj.mp hc).symm
    · exact absurd hc (by simp)
  · intro h1 h2 h3 h4 h5 h6
    simp [autoEmit, hasChanged, fieldBaseline, h1, h2, h3, h4, h5, h6]

/-- C4 witness: with every field at its baseline there is no emission, and
with one field changed the combined object is emitted. -/
theorem filtersForm_autoEmit_spec_witness :
    autoEmit ⟨"", "", "", "", "", "x"⟩ "" ⟨none, none, none, none, none, none⟩
      = none ∧
    (autoEmit ⟨"draft", "", "", "", "", ""⟩ ""
        ⟨none, none, none, none, none, none⟩).isSome = true :=
  ⟨(filtersForm_autoEmit_spec ⟨"", "", "", "", "", "x"⟩ ""
      ⟨none, none, none, none, none, none⟩).2.2 rfl rfl rfl rfl rfl rfl,
   (filtersForm_autoEmit_spec ⟨"draft", "", "", "", "", ""⟩ ""
      ⟨none, none, none, none, none, none⟩).1.mpr (by simp)⟩

/-- The specification-side cell agrees with the code's cell: an absent key
gives `undefined`, which the escape turns into the empty string. -/
theorem cellSpec_eq_formatCell (env : JSEnv) (row : Row) (h : String) :
    cellSpec env row h = formatCell env (jsLookup row h) := by
  unfold cellSpec jsLookup
  cases List.lookup h row <;> rfl

/-- C6: `convertToCSV` of absent or empty data is the empty string with no
header row; on any row list whose first row has no duplicate keys it
coincides with the specification's `toCSV` (supplied headers, else first
row's keys in insertion order; cells in header order; missing keys as
empty string; newline-joined, header first); and concretely
`toCSV [(a:1, b:2)]` with no explicit headers is `"a,b\n1,2"`. -/
theorem toCSV_shape_spec :
    (∀ (env : JSEnv) (hs : Option (List String)),
      convertToCSV env none hs = "" ∧ convertToCSV env (some []) hs = "") ∧
    (∀ (env : JSEnv) (rows : List Row) (hs : Option (List String)),
      (∀ r0 ∈ rows.head?, (r0.map Prod.fst).Nodup) →
      convertToCSV env (some rows) hs = toCSVSpec env rows hs) ∧
    (∀ env : JSEnv,
      convertToCSV env (some [[("a", JSValue.num 1), ("b", JSValue.num 2)]]) none
        = "a,b\n1,2") := by
  refine ⟨fun env hs => ⟨rfl, rfl⟩, ?_, fun env => rfl⟩
  intro env rows hs hnd
  cases rows with
  | nil => rfl
  | cons r0 rest =>
    have hocc : firstOccur [] (r0.map Prod.fst) = r0.map Prod.fst :=
      firstOccur_eq_self _ (hnd r0 (by simp)) [] (by simp)
    simp only [convertToCSV, toCSVSpec, hocc, cellSpec_eq_formatCell]

/-- C6 witness: the refinement at a concrete row list. -/
theorem toCSV_shape_spec_witness :
    convertToCSV idEnv (some [[("a", JSValue.num 1), ("b", JSValue.num 2)]]) none
      = toCSVSpec idEnv [[("a", JSValue.num 1), ("b", JSValue.num 2)]] none ∧
    convertToCSV idEnv (some [[("a", JSValue.num 1), ("b", JSValue.num 2)]]) none
      = "a,b\n1,2" :=
  ⟨toCSV_shape_spec.2.1 idEnv [[("a", JSValue.num 1), ("b", JSValue.num 2)]] none
      (by simp),
   toCSV_shape_spec.2.2 idEnv⟩

/-- For non-null values, `escapeCSVValue` is the quote-or-passthrough on the
stringified value. -/
theorem escapeCSVValue_eq (env : JSEnv) (v : JSValue) (hv : v ≠ JSValue.null) :
    escapeCSVValue env v =
      (if jsIncludes (jsToString env v) ',' || jsIncludes (jsToString env v) '"'
          || jsIncludes (jsToString env v) '\n' then
        "\"" ++ String.mk (doubleQuotesList (jsToString env v).data) ++ "\""
      else jsToString env v) := by
  cases v with
  | null => exact absurd rfl hv
  | str s => rfl
  | num n => rfl
  | date iso => rfl

/-- C7: `escapeCSVValue` returns delimiter-free values stringified but
otherwise unchanged, hence is idempotent on them; and on any string holding
a comma, double-quote or newline it produces a double-quote at both ends
around the input with every internal double-quote doubled (quote count
`2·k + 2`), leaving no unescaped internal double-quote. -/
theorem escapeValue_spec :
    (∀ (env : JSEnv) (v : JSValue), v ≠ JSValue.null →
      jsIncludes (jsToString env v) ',' = false →
      jsIncludes (jsToString env v) '"' = false →
      jsIncludes (jsToString env v) '\n' = false →
      escapeCSVValue env v = jsToString env v ∧
      escapeCSVValue env (.str (escapeCSVValue env v)) = escapeCSVValue env v) ∧
    (∀ (env : JSEnv) (s : String),
      (jsIncludes s ',' || jsIncludes s '"' || jsIncludes s '\n') = true →
      (escapeCSVValue env (.str s)).data = '"' :: (doubleQuotesList s.data ++ ['"']) ∧
      (escapeCSVValue env (.str s)).data.head? = some '"' ∧
      (escapeCSVValue env (.str s)).data.getLast? = some '"' ∧
      (escapeCSVValue env (.str s)).data.count '"' = 2 * s.data.count '"' + 2 ∧
      noLoneQuote (doubleQuotesList s.data) = true) := by
  constructor
  · intro env v hv h1 h2 h3
    have heq : escapeCSVValue env v = jsToString env v := by
      rw [escapeCSVValue_eq env v hv, if_neg (by simp [h1, h2, h3])]
    refine ⟨heq, ?_⟩
    rw [heq]
    have hstr : jsToString env (.str (jsToString env v)) = jsToString env v := rfl
    rw [escapeCSVValue_eq env _ (by simp), hstr, if_neg (by simp [h1, h2, h3])]
  · intro env s hdelim
    have hesc : escapeCSVValue env (.str s)
        = "\"" ++ String.mk (doubleQuotesList s.data) ++ "\"" := by
      rw [escapeCSVValue_eq env _ (by simp)]
      exact if_pos hdelim
    have hquote : ("\"" : String).data = ['"'] := rfl
    have hdata : (escapeCSVValue env (.str s)).data
        = '"' :: (doubleQuotesList s.data ++ ['"']) := by
      rw [hesc]
      simp [hquote]
    refine ⟨hdata, ?_, ?_, ?_, noLoneQuote_doubleQuotesList s.data⟩
    · rw [hdata]; rfl
    · rw [hdata, ← List.cons_append]
      exact List.getLast?_concat _
    · rw [hdata]
      simp [List.count_cons, List.count_append, doubleQuotesList_count]

/-- C7 witness: a delimiter-free value is unchanged and stable, and a
delimited one is safely quoted. -/
theorem escapeValue_spec_witness :
    (escapeCSVValue idEnv (.str "abc") = jsToString idEnv (.str "abc") ∧
      escapeCSVValue idEnv (.str (escapeCSVValue idEnv (.str "abc")))
        = escapeCSVValue idEnv (.str "abc")) ∧
    noLoneQuote (doubleQuotesList ("A,\"B" : String).data) = true :=
  ⟨escapeValue_spec.1 idEnv (.str "abc") (by decide) (by decide) (by decide)
      (by decide),
   (escapeValue_spec.2 idEnv "A,\"B" (by decide)).2.2.2.2⟩

/-- C8: for any report whose title is `"A,B"`, formatting and serializing
with the custom headers yields the fixed header line followed by the data
line, in which the Title cell (position 1) is exactly the quoted `"A,B"`. -/
theorem roundTrip_commaTitle_spec (env : JSEnv) (r : Report)
    (htitle : r.title = JSValue.str "A,B") :
    convertToCSV env (some (formatReportsForCSV env (some [r])))
        (some REPORTS_CSV_HEADERS)
      = "ID,Title,Status,Department,Priority,Author,Created Date,Updated Date,Record Count,File Size,Execution Time"
        ++ "\n" ++ String.intercalate "," (reportCells env r) ∧
    (reportCells env r)[1]? = some "\"A,B\"" := by
  constructor
  · rfl
  · rw [show (reportCells env r)[1]?
        = some (formatCell env (jsLookup (formatReport env r) "Title")) from rfl,
      show jsLookup (formatReport env r) "Title" = r.title from rfl, htitle]
    rfl

/-- C8 witness: the round trip at a concrete record. -/
theorem roundTrip_commaTitle_spec_witness :
    convertToCSV idEnv (some (formatReportsForCSV idEnv (some [reportWithCommaTitle])))
        (some REPORTS_CSV_HEADERS)
      = "ID,Title,Status,Department,Priority,Author,Created Date,Updated Date,Record Count,File Size,Execution Time"
        ++ "\n" ++ String.intercalate "," (reportCells idEnv reportWithCommaTitle) ∧
    (reportCells idEnv reportWithCommaTitle)[1]? = some "\"A,B\"" :=
  roundTrip_commaTitle_spec idEnv reportWithCommaTitle rfl

/-- C2: once the input has been quiescent for at least `d` after the last
change, the debounced output equals that last value; while every change
lands strictly within the previous change's window, the output never moves
off the mount value before the final timer fires (each new input cancels
the previously scheduled update, so no intermediate value is emitted). -/
theorem useDebounce_spec {α : Type} (d : Nat) (v0 : α) (l : List (Nat × α))
    (tn : Nat) (vn : α) (T : Nat) :
    (List.Chain' (fun a b => a.1 < b.1) ((0, v0) :: (l ++ [(tn, vn)])) →
      tn + d ≤ T →
      debouncedAt d v0 (l ++ [(tn, vn)]) T = vn) ∧
    (List.Chain' (fun a b => b.1 < a.1 + d) ((0, v0) :: (l ++ [(tn, vn)])) →
      T < tn + d →
      debouncedAt d v0 (l ++ [(tn, vn)]) T = v0) := by
  constructor
  · intro hinc hT
    unfold debouncedAt
    obtain ⟨ys, hys⟩ := firedTimers_concat d ((0, v0) :: l) tn vn
    simp only [List.cons_append] at hys
    rw [hys]
    have hall : ∀ p ∈ ys ++ [(tn + d, vn)], p.1 ≤ T := by
      intro p hp
      rw [← hys] at hp
      obtain ⟨q, hq, hpq⟩ := firedTimers_mem d _ p hp
      have hqle : q.1 ≤ tn := by
        refine chain_time_le_last ((0, v0) :: l) tn vn ?_ q ?_
        · simpa [List.cons_append] using hinc
        · simpa [List.cons_append] using hq
      rw [hpq]
      simp
      omega
    rw [List.filter_eq_self.mpr (fun p hp => by simpa using hall p hp)]
    rw [List.foldl_append]
    simp
  · intro hwin hT
    unfold debouncedAt
    have hfired := firedTimers_allCancelled d ((0, v0) :: l) tn vn
      (by simpa [List.cons_append] using hwin)
    simp only [List.cons_append] at hfired
    rw [hfired]
    have hnot : ¬(tn + d ≤ T) := by omega
    simp [hnot]

/-- C2 witness: with a 300 ms window, two rapid changes settle to the last
value after quiescence, and show the mount value before the last window
elapses. -/
theorem useDebounce_spec_witness :
    debouncedAt 300 0 [(100, 1), (250, 2)] 550 = 2 ∧
    debouncedAt 300 0 [(100, 1), (250, 2)] 400 = 0 :=
  ⟨(useDebounce_spec 300 0 [(100, 1)] 250 2 550).1
      (by norm_num [List.chain'_cons]) (by norm_num),
   (useDebounce_spec 300 0 [(100, 1)] 250 2 400).2
      (by norm_num [List.chain'_cons]) (by norm_num)⟩

end ReportScreen
